import Mathlib

/-!
Verification of the AccelerateOED migration and validation scripts
(`scripts/migrate_project.py` and `scripts/validate_migration.py`).

The filesystem is modelled as an association list from path strings to file
contents (lists of characters, one per byte of text), together with the list
of directories that exist.  Every operation of the two scripts is translated
directly from the Python source; external facilities (the YAML parser and
the module-lookup machinery) are taken as oracle parameters, since their
code is not in this repository.
-/

namespace AccelerateOED

/-- A file system: files as an association list from path to textual
content, plus the set (list) of existing directories. -/
structure FS where
  files : List (String × List Char)
  dirs : List String
deriving DecidableEq, Repr

/-- Look up a path in a file association list. -/
def findFile (p : String) : List (String × List Char) → Option (List Char)
  | [] => none
  | (k, v) :: t => if k = p then some v else findFile p t

/-- Look up the content of a file. -/
def lookupFile (fs : FS) (p : String) : Option (List Char) :=
  findFile p fs.files

/-- Set the content of a file: replace the binding in place when the path is
present, otherwise add it at the end. -/
def setFile (l : List (String × List Char)) (k : String) (v : List Char) :
    List (String × List Char) :=
  match l with
  | [] => [(k, v)]
  | (k0, v0) :: t => if k0 = k then (k, v) :: t else (k0, v0) :: setFile t k v

/-- Write a file into a file system. -/
def writeFile (fs : FS) (k : String) (v : List Char) : FS :=
  { fs with files := setFile fs.files k v }

/-- Split a character list at a separating character (the pieces do not
contain the separator; n separators give n+1 pieces). -/
def splitOnChar (c : Char) : List Char → List (List Char)
  | [] => [[]]
  | x :: t =>
    let r := splitOnChar c t
    if x = c then [] :: r
    else
      match r with
      | h :: t2 => (x :: h) :: t2
      | [] => [[x]]

/-- Join pieces with a slash character between them. -/
def joinSlash : List (List Char) → List Char
  | [] => []
  | [x] => x
  | x :: t => x ++ '/' :: joinSlash t

/-- `Path.name`: the final component of a path. -/
def baseName (p : String) : String :=
  String.mk ((splitOnChar '/' p.toList).getLastD [])

/-- `Path.parent`: the path without its final component. -/
def parentPath (p : String) : String :=
  String.mk (joinSlash (splitOnChar '/' p.toList).dropLast)

/-- The chain of ancestor paths created by `mkdir(parents=True)`:
for `a/b/c` the paths `a`, `a/b`, `a/b/c`. -/
def ancestorPaths (p : String) : List String :=
  let parts := splitOnChar '/' p.toList
  (List.range parts.length).map (fun i => String.mk (joinSlash (parts.take (i + 1))))

/-- Add a directory to the directory list when absent (`exist_ok=True`). -/
def addDir (dirs : List String) (d : String) : List String :=
  if d ∈ dirs then dirs else dirs ++ [d]

/-- `Path.mkdir(parents=True, exist_ok=True)`: create the directory and all
missing ancestors. -/
def mkdirParents (dirs : List String) (p : String) : List String :=
  (ancestorPaths p).foldl addDir dirs

/-- `base / rel` path joining. -/
def pjoin (b r : String) : String := b ++ "/" ++ r

example : baseName "N5ForShare/determineSyncTwo.py" = "determineSyncTwo.py" := by decide
example : parentPath "new/src/core/mocu_cuda.py" = "new/src/core" := by decide
example : ancestorPaths "new/src/core" = ["new", "new/src", "new/src/core"] := by decide

/-! ## `scripts/migrate_project.py` -/

/-- `FILE_MAPPING`: the static `(source, destination, needs_improvement)`
plan table of `migrate_project.py`. -/
def FILE_MAPPING : List (String × String × Bool) :=
  [ ("N5ForShare/MOCU.py", "src/core/mocu_cuda.py", true),
    ("N5ForShare/determineSyncN.py", "src/core/sync_detection.py", true),
    ("N5ForShare/determineSyncTwo.py", "src/core/sync_detection.py", false),
    ("N5ForShare/mocu_comp.py", "src/core/sync_detection.py", false),
    ("models/MP_train.py", "src/models/trainer.py", true),
    ("N5ForShare/findMPSequence.py", "src/strategies/mp_strategy.py", true),
    ("N5ForShare/findMOCUSequence.py", "src/strategies/mocu_strategy.py", true),
    ("N5ForShare/findEntropySequence.py", "src/strategies/entropy_strategy.py", true),
    ("N5ForShare/findRandomSequence.py", "src/strategies/random_strategy.py", true),
    ("models/utils.py", "src/utils/visualization.py", true),
    ("N5ForShare/drawResults.py", "scripts/4_visualize_results.py", true),
    ("N5ForShare/runMainForPerformanceMeasure.py", "scripts/3_run_experiment.py", true) ]

/-- The directory list of `ensure_directories`. -/
def DIRS_LIST : List String :=
  [ "src/core", "src/models", "src/strategies", "src/utils", "scripts",
    "tests", "logs", "configs", "Dataset", "Experiment", "results" ]

/-- The relative-path test `d.startswith("src/")`. -/
def isSrcDir (d : String) : Bool :=
  "src/".toList.isPrefixOf d.toList

/-- The content written into fresh `__init__.py` marker files. -/
def INIT_CONTENT : List Char := "\x22\x22\x22Package initialization.\x22\x22\x22\n".toList

/-- The marker-file path `base_path / d / "__init__.py"`. -/
def markerPath (base d : String) : String :=
  pjoin (pjoin base d) "__init__.py"

/-- The marker-file write of `ensure_directories`: write `__init__.py`
only when it does not already exist. -/
def markerStep (base d : String) (fs1 : FS) : FS :=
  match lookupFile fs1 (markerPath base d) with
  | some _ => fs1
  | none => writeFile fs1 (markerPath base d) INIT_CONTENT

/-- One iteration of the `ensure_directories` loop: create the directory
(and ancestors), then, for paths under `src/`, write the `__init__.py`
marker only when it does not already exist. -/
def dirStep (base : String) (fs : FS) (d : String) : FS :=
  if isSrcDir d then
    markerStep base d { fs with dirs := mkdirParents fs.dirs (pjoin base d) }
  else { fs with dirs := mkdirParents fs.dirs (pjoin base d) }

/-- `ensure_directories(base_path)`. -/
def ensure_directories (base : String) (fs : FS) : FS :=
  DIRS_LIST.foldl (dirStep base) fs

/-- A row of 60 equals signs, `'='*60`. -/
def rule60 : List Char := List.replicate 60 '='

/-- The separator block written before appended content:
blank line, rule, provenance comment naming the source file, rule,
blank line. -/
def sepBlock (srcName : String) : List Char :=
  "\n\n# ".toList ++ rule60 ++ "\n".toList
    ++ "# Appended from ".toList ++ srcName.toList ++ "\n".toList
    ++ "# ".toList ++ rule60 ++ "\n\n".toList

/-- `copy_file(src, dst, append)`: `False` without touching anything when
the source is missing; otherwise create the destination's parent
directories, then either append (when `append` holds and the destination
exists) or copy wholesale. -/
def copy_file (fs : FS) (src dst : String) (append : Bool) : FS × Bool :=
  match lookupFile fs src with
  | none => (fs, false)
  | some content =>
    let fs1 : FS := { fs with dirs := mkdirParents fs.dirs (parentPath dst) }
    match append, lookupFile fs1 dst with
    | true, some old =>
      (writeFile fs1 dst (old ++ sepBlock (baseName src) ++ content), true)
    | true, none => (writeFile fs1 dst content, true)
    | false, _ => (writeFile fs1 dst content, true)

/-- The documentation header block prepended by `add_file_header`. -/
def headerBlock (description : String) : List Char :=
  "\x22\x22\x22\n".toList ++ description.toList
    ++ "\n\nThis module is part of the MOCU-OED project for optimal experimental design\nin coupled oscillator systems.\n\x22\x22\x22\n\n".toList

/-- Python `str.strip()`: drop whitespace from both ends. -/
def pyStrip (s : List Char) : List Char :=
  ((s.dropWhile Char.isWhitespace).reverse.dropWhile Char.isWhitespace).reverse

/-- The module-docstring test of `add_file_header`:
`content.strip().startswith('"""') or content.strip().startswith("'''")`. -/
def hasDocstring (content : List Char) : Bool :=
  "\x22\x22\x22".toList.isPrefixOf (pyStrip content)
    || "\x27\x27\x27".toList.isPrefixOf (pyStrip content)

/-- `add_file_header(file_path, description)`: opening a missing path for
reading raises, modelled as `Except.error`; otherwise prepend the header
block exactly when no module docstring is present. -/
def add_file_header (fs : FS) (p : String) (description : String) :
    Except String FS :=
  match lookupFile fs p with
  | none => .error ("FileNotFoundError: " ++ p)
  | some content =>
    if !hasDocstring content then
      .ok (writeFile fs p (headerBlock description ++ content))
    else
      .ok fs

/-- The `file_descriptions` table of `migrate_files`. -/
def FILE_DESCRIPTIONS : List (String × String) :=
  [ ("src/core/mocu_cuda.py", "CUDA-accelerated MOCU computation"),
    ("src/core/sync_detection.py", "Synchronization detection for oscillator systems"),
    ("src/models/trainer.py", "Neural network training utilities"),
    ("src/strategies/mp_strategy.py", "Message passing-based OED strategy"),
    ("src/strategies/mocu_strategy.py", "ODE-based MOCU strategy"),
    ("src/strategies/entropy_strategy.py", "Entropy-based OED strategy"),
    ("src/strategies/random_strategy.py", "Random baseline strategy") ]

/-- One iteration of the header loop of `migrate_files`: the call to
`add_file_header` is guarded by `file_path.exists()`, so the error branch
of `add_file_header` is unreachable here and falls back to the unchanged
file system. -/
def headerStep (newB : String) (fs : FS) (e : String × String) : FS :=
  match lookupFile fs (pjoin newB e.1) with
  | none => fs
  | some _ =>
    match add_file_header fs (pjoin newB e.1) e.2 with
    | .ok fs1 => fs1
    | .error _ => fs

/-- Step 3 of `migrate_files`: annotate the designated destinations. -/
def headerPass (newB : String) (fs : FS) : FS :=
  FILE_DESCRIPTIONS.foldl (headerStep newB) fs

/-- Whether `pat` occurs as a contiguous subsequence: Python substring
membership `pat in s`. -/
def containsSeq (pat : List Char) : List Char → Bool
  | [] => pat.isEmpty
  | x :: t => pat.isPrefixOf (x :: t) || containsSeq pat t

/-- One iteration of the copy loop of `migrate_files` (lines 130-139):
the append flag is the substring test `"Append" in dst_rel` on the
destination path, and the success/failure counters grow with the boolean
`copy_file` returns. -/
def planStep (oldB newB : String) (acc : FS × Nat × Nat)
    (e : String × String × Bool) : FS × Nat × Nat :=
  let src := pjoin oldB e.1
  let dst := pjoin newB e.2.1
  let app := containsSeq "Append".toList e.2.1.toList
  match copy_file acc.1 src dst app with
  | (fs1, true) => (fs1, acc.2.1 + 1, acc.2.2)
  | (fs1, false) => (fs1, acc.2.1, acc.2.2 + 1)

/-- The copy loop of `migrate_files` over a plan table, returning the final
file system with the success and failure counts. -/
def runPlan (oldB newB : String) (plan : List (String × String × Bool))
    (fs : FS) : FS × Nat × Nat :=
  plan.foldl (planStep oldB newB) (fs, 0, 0)

/-- The opening of the migration report, up to the table header
(`create_migration_report`, summary section). -/
def reportHead (success fail : Nat) : List Char :=
  ("# Migration Report\n\nGenerated: migrate_project.py\n\n## Summary\n\n- **Files copied successfully**: "
    ++ toString success
    ++ "\n- **Files failed**: " ++ toString fail
    ++ "\n- **Status**: " ++ (if fail == 0 then "✓ Complete" else "⚠ Incomplete")
    ++ "\n\n## File Mapping\n\nThe following files were migrated:\n\n| Old Location | New Location | Status |\n|-------------|-------------|--------|\n").toList

/-- One row of the report's file-mapping table; existence of the
destination is re-checked against the file system at render time. -/
def reportRow (base : String) (fs : FS) (e : String × String × Bool) : List Char :=
  ("| `" ++ e.1 ++ "` | `" ++ e.2.1 ++ "` | "
    ++ (if (lookupFile fs (pjoin base e.2.1)).isSome then "✓" else "✗")
    ++ " |\n").toList

/-- The fixed manual-steps text closing the migration report. -/
def REPORT_TAIL : List Char :=
  ("\n\n## Manual Steps Required\n\n### 1. Update Import Statements\n\nOld imports like:\n```python\nfrom MOCU "
    ++ "import *\nfrom determineSyncN " ++ "import *\n```\n\nShould become:\n```python\nfrom src.core.mocu_cuda "
    ++ "import MOCU\nfrom src.core.sync_detection "
    ++ "import determineSyncN\n```\n\n### 2. Update Configuration\n\n- Update `N_global` in CUDA kernel if needed\n- Configure model paths in `configs/default_config.yaml`\n\n### 3. Test Migration\n\nRun the test suite:\n```bash\npytest tests/ -v\n```\n\n### 4. Update Documentation\n\n- Review and update docstrings\n- Update README examples\n- Check that all functions have type hints\n\n## Known Issues\n\n1. **Hard-coded paths**: Some files contain hard-coded paths that need updating\n2. **N_global parameter**: CUDA kernel requires manual update for different N\n3. **Model loading**: Update model paths in strategy files\n\n## Validation Checklist\n\n- [ ] All files copied successfully\n- [ ] "
    ++ "Import statements updated\n- [ ] Tests pass\n- [ ] Documentation reviewed\n- [ ] Configuration files created\n- [ ] Example scripts work\n\n## Contact\n\nIf you encounter issues, please check:\n- REORGANIZATION_GUIDE.md\n- README.md\n- GitHub issues\n").toList

/-- `create_migration_report(base_path, success, fail)`: render the report
and write it at `MIGRATION_REPORT.md` under the base path. -/
def create_migration_report (base : String) (fs : FS) (success fail : Nat) : FS :=
  let report := reportHead success fail
    ++ (FILE_MAPPING.map (reportRow base fs)).flatten ++ REPORT_TAIL
  writeFile fs (pjoin base "MIGRATION_REPORT.md") report

/-- `migrate_files(old_base, new_base)`: provision directories, run the
copy loop over `FILE_MAPPING`, annotate headers, write the report.  The
success and failure counts are returned alongside the final file system. -/
def migrate_files (oldB newB : String) (fs : FS) : FS × Nat × Nat :=
  let fs1 := ensure_directories newB fs
  let r := runPlan oldB newB FILE_MAPPING fs1
  let fs3 := headerPass newB r.1
  (create_migration_report newB fs3 r.2.1 r.2.2, r.2.1, r.2.2)

/-! ## `scripts/validate_migration.py` -/

/-- The three finding levels of the validator. -/
inductive Level where
  | passed
  | warning
  | error
deriving DecidableEq, Repr

/-- One validation finding: a level and a message, appended by a check to
the corresponding accumulator bucket. -/
structure Finding where
  level : Level
  msg : String
deriving DecidableEq, Repr

/-- The three accumulator buckets of `ProjectValidator`
(`self.passed`, `self.warnings`, `self.errors`). -/
structure VState where
  passed : List String
  warnings : List String
  errors : List String
deriving DecidableEq, Repr

/-- The observable behaviour of one check: the findings it appends in
order, then an optional uncaught exception message. -/
abbrev CheckOutcome := List Finding × Option String

/-- Append one finding to its bucket. -/
def addFinding (st : VState) (f : Finding) : VState :=
  match f.level with
  | .passed => { st with passed := st.passed ++ [f.msg] }
  | .warning => { st with warnings := st.warnings ++ [f.msg] }
  | .error => { st with errors := st.errors ++ [f.msg] }

/-- One iteration of the `validate_all` loop: run the check, and when it
raises, catch the exception and append one error naming the check. -/
def applyCheck (st : VState) (c : String × CheckOutcome) : VState :=
  let st1 := c.2.1.foldl addFinding st
  match c.2.2 with
  | some m => { st1 with errors := st1.errors ++ [c.1 ++ ": " ++ m] }
  | none => st1

/-- `ProjectValidator.validate_all`: run every named check in order from
empty buckets and report whether the error bucket stayed empty. -/
def validate_all (checks : List (String × CheckOutcome)) : VState × Bool :=
  let st := checks.foldl applyCheck ⟨[], [], []⟩
  (st, st.errors.length == 0)

/-- `main()`: exit status 0 when `validate_all` returns `True`, else 1. -/
def main_exit (checks : List (String × CheckOutcome)) : Nat :=
  if (validate_all checks).2 then 0 else 1

/-- The `required_dirs` list of `check_directory_structure`. -/
def REQUIRED_DIRS : List String :=
  [ "src", "src/core", "src/models", "src/strategies", "src/utils",
    "scripts", "configs", "tests" ]

/-- `ProjectValidator.check_directory_structure`: one finding per required
directory. -/
def check_directory_structure (root : String) (fs : FS) : List Finding :=
  REQUIRED_DIRS.map (fun d =>
    if pjoin root d ∈ fs.dirs then ⟨.passed, "Directory exists: " ++ d⟩
    else ⟨.error, "Missing directory: " ++ d⟩)

/-- The `required_files` list of `check_required_files`. -/
def REQUIRED_FILES : List String :=
  [ "README.md", "requirements.txt", "setup.py", "configs/default_config.yaml",
    "src/__init__.py", "src/core/__init__.py", "src/models/__init__.py",
    "src/strategies/__init__.py", "src/utils/__init__.py" ]

/-- `ProjectValidator.check_required_files`: one finding per required
file. -/
def check_required_files (root : String) (fs : FS) : List Finding :=
  REQUIRED_FILES.map (fun f =>
    if (lookupFile fs (pjoin root f)).isSome then ⟨.passed, "File exists: " ++ f⟩
    else ⟨.error, "Missing file: " ++ f⟩)

/-- The outcome of `importlib.util.find_spec` on one module name: a spec,
`None`, or an exception. -/
inductive ImportRes where
  | found
  | notFound
  | raises (msg : String)

/-- The `import_tests` list of `check_imports`. -/
def IMPORT_TESTS : List (String × String) :=
  [ ("src.utils.config", "Config utilities"),
    ("src.utils.data_utils", "Data utilities"),
    ("src.utils.logging_utils", "Logging utilities"),
    ("src.models.message_passing", "Message passing model") ]

/-- `ProjectValidator.check_imports`: the lookup machinery (external to
this repository) enters as the oracle `impl`; each module is tried inside
its own `try`, so one finding per module. -/
def check_imports (impl : String → ImportRes) : List Finding :=
  IMPORT_TESTS.map (fun t =>
    match impl t.1 with
    | .found => ⟨.passed, "Import works: " ++ t.1⟩
    | .notFound => ⟨.warning, "Module not found: " ++ t.1⟩
    | .raises m => ⟨.error, "Import failed: " ++ t.1 ++ " - " ++ m⟩)

/-- A parsed YAML value as `yaml.safe_load` returns it. -/
inductive YamlVal where
  | ynull
  | ybool (b : Bool)
  | yint (n : Int)
  | ystr (s : String)
  | ylist (xs : List YamlVal)
  | ymap (entries : List (String × YamlVal))

/-- The Python type name of a parsed value, as it appears in a
`TypeError` message. -/
def typeName : YamlVal → String
  | .ynull => "NoneType"
  | .ybool _ => "bool"
  | .yint _ => "int"
  | .ystr _ => "str"
  | .ylist _ => "list"
  | .ymap _ => "dict"

/-- Python membership `s in v` for a string needle: key membership in a
dict, equality membership in a list, substring membership in a string, and
a `TypeError` for null, booleans and numbers. -/
def pyIn (s : String) : YamlVal → Except String Bool
  | .ymap es => .ok (es.any (fun e => e.1 == s))
  | .ylist xs =>
    .ok (xs.any (fun x => match x with | .ystr t => t == s | _ => false))
  | .ystr t => .ok (containsSeq s.toList t.toList)
  | v => .error ("argument of type \x27" ++ typeName v ++ "\x27 is not iterable")

/-- The result of `yaml.safe_load` on the configuration file: a parse
error or a value. -/
inductive ParseOutcome where
  | perror (msg : String)
  | pvalue (v : YamlVal)

/-- The `required_sections` list of `check_configuration`. -/
def REQUIRED_SECTIONS : List String :=
  [ "system", "integration", "training", "model", "oed", "paths" ]

/-- The section loop of `check_configuration`: membership findings per
section; the first raising membership test aborts the loop and its
`TypeError` is caught by the check's generic handler, yielding one error
finding. -/
def sectionFindings (v : YamlVal) : List String → List Finding
  | [] => []
  | s :: rest =>
    match pyIn s v with
    | .ok true => ⟨.passed, "Config section exists: " ++ s⟩ :: sectionFindings v rest
    | .ok false => ⟨.warning, "Config section missing: " ++ s⟩ :: sectionFindings v rest
    | .error m => [⟨.error, "Config check failed: " ++ m⟩]

/-- `ProjectValidator.check_configuration`: the YAML parser (external to
this repository) enters as the oracle `parse`. -/
def check_configuration (root : String) (fs : FS)
    (parse : List Char → ParseOutcome) : List Finding :=
  match lookupFile fs (pjoin root "configs/default_config.yaml") with
  | none => [⟨.error, "Configuration file not found"⟩]
  | some c =>
    match parse c with
    | .perror m => [⟨.error, "Invalid YAML: " ++ m⟩]
    | .pvalue v => sectionFindings v REQUIRED_SECTIONS

/-- The `doc_files` list of `check_documentation`. -/
def DOC_FILES : List (String × String) :=
  [ ("README.md", "Main README"),
    ("REORGANIZATION_GUIDE.md", "Reorganization guide") ]

/-- `ProjectValidator.check_documentation`: presence and a 100-character
minimum on stripped content decide passed versus warning; absence is a
warning, never an error. -/
def check_documentation (root : String) (fs : FS) : List Finding :=
  DOC_FILES.map (fun t =>
    match lookupFile fs (pjoin root t.1) with
    | some content =>
      if 100 < (pyStrip content).length then ⟨.passed, "Documentation exists: " ++ t.1⟩
      else ⟨.warning, "Documentation too short: " ++ t.1⟩
    | none => ⟨.warning, "Documentation missing: " ++ t.1⟩)

/-- The `checks` table of `validate_all`, with each concrete check's
findings; the modelled check bodies themselves raise nothing. -/
def project_checks (root : String) (fs : FS) (impl : String → ImportRes)
    (parse : List Char → ParseOutcome) : List (String × CheckOutcome) :=
  [ ("Directory Structure", (check_directory_structure root fs, none)),
    ("Required Files", (check_required_files root fs, none)),
    ("Python Imports", (check_imports impl, none)),
    ("Configuration", (check_configuration root fs parse, none)),
    ("Documentation", (check_documentation root fs, none)) ]

/-! ## Derived data used in the theorems below -/

/-- The messages of the findings at one level, in emission order. -/
def levelMsgs (c : Level) (l : List Finding) : List String :=
  (l.filter (fun f => f.level == c)).map Finding.msg

/-- The error message the runner adds when a check raises. -/
def excMsgs (name : String) : Option String → List String
  | some m => [name ++ ": " ++ m]
  | none => []

/-- The empty file system. -/
def emptyFS : FS := { files := [], dirs := [] }

/-- An old project root holding the two synchronization-detection sources
of the shared-destination scenario: the first contains `X`, the second
(the entry `FILE_MAPPING` marks as an append continuation) contains `Y`. -/
def sharedDestFS : FS :=
  { files := [ (pjoin "old" "N5ForShare/determineSyncN.py", "X".toList),
               (pjoin "old" "N5ForShare/determineSyncTwo.py", "Y".toList) ],
    dirs := [] }

/-- Documentation content longer than the 100-character threshold. -/
def longDoc : List Char := List.replicate 150 'a'

/-- A fully conforming project root: all required directories and files,
with long documentation. -/
def conformingFS : FS :=
  { files := [ (pjoin "root" "README.md", longDoc),
               (pjoin "root" "REORGANIZATION_GUIDE.md", longDoc) ]
      ++ REQUIRED_FILES.map (fun f => (pjoin "root" f, "x".toList)),
    dirs := REQUIRED_DIRS.map (pjoin "root") }

/-- An import oracle with exactly one unresolvable optional module. -/
def oneMissingImport : String → ImportRes := fun m =>
  if m == "src.models.message_passing" then .notFound else .found

/-- A parse oracle returning a mapping with all six required sections. -/
def fullConfigParse : List Char → ParseOutcome := fun _ =>
  .pvalue (.ymap (REQUIRED_SECTIONS.map (fun s => (s, .ynull))))

/-- The checks of the end-to-end scenario with one unresolvable optional
module and an otherwise conforming root. -/
def oneWarningChecks : List (String × CheckOutcome) :=
  project_checks "root" conformingFS oneMissingImport fullConfigParse

/-- A root holding only a configuration file (content irrelevant, the
parse oracle decides). -/
def configOnlyFS : FS :=
  { files := [(pjoin "r" "configs/default_config.yaml", [])], dirs := [] }

/-- The parsed YAML values on which Python membership raises `TypeError`:
null, booleans and numbers. -/
def nonContainer : YamlVal → Bool
  | .ynull => true
  | .ybool _ => true
  | .yint _ => true
  | _ => false

/-- The `checks` list of `validate_all` with the five fixed check names
and arbitrary outcomes. -/
def fiveChecks (o1 o2 o3 o4 o5 : CheckOutcome) : List (String × CheckOutcome) :=
  [ ("Directory Structure", o1), ("Required Files", o2), ("Python Imports", o3),
    ("Configuration", o4), ("Documentation", o5) ]

/-- A file system for the append-mode demonstration: the source exists
and the destination pre-exists with content `X`. -/
def appendDemoFS : FS :=
  { files := [ ("old/b.py", "Y".toList), ("new/a.py", "X".toList) ], dirs := [] }

/-- A file system with one annotatable file. -/
def headerDemoFS : FS :=
  { files := [("new/src/models/trainer.py", "x = 1\n".toList)], dirs := [] }

/-- `headerDemoFS` after one run of `add_file_header`. -/
def headerDemoAfter : FS :=
  writeFile headerDemoFS "new/src/models/trainer.py"
    (headerBlock "Neural network training utilities" ++ "x = 1\n".toList)

/-- The state of one directory entry after provisioning: all ancestor
directories exist and, under `src/`, the marker file is present. -/
def provisioned (b : String) (fs : FS) (d : String) : Prop :=
  (∀ a ∈ ancestorPaths (pjoin b d), a ∈ fs.dirs) ∧
  (isSrcDir d = true → (lookupFile fs (markerPath b d)).isSome = true)

/-- A three-entry demonstration plan whose middle entry has a missing
source. -/
def demoPlan : List (String × String × Bool) :=
  [ ("a.py", "dst1.py", true), ("missing.py", "dst2.py", true),
    ("c.py", "dst3.py", false) ]

/-- A file system holding the first and third sources of `demoPlan` but
not the second. -/
def demoPlanFS : FS :=
  { files := [ (pjoin "old" "a.py", "A".toList), (pjoin "old" "c.py", "C".toList) ],
    dirs := [] }

/-- The destination content one transfer of the copy loop produces for an
entry whose source holds `c`, given the file system `fs` at the entry's
turn: with the loop's append flag set and a pre-existing destination, the
old content plus separator block plus `c`; otherwise a byte-for-byte
copy of `c`. -/
def singleTransferContent (oldB newB : String) (fs : FS)
    (e : String × String × Bool) (c : List Char) : List Char :=
  if containsSeq "Append".toList e.2.1.toList then
    match lookupFile fs (pjoin newB e.2.1) with
    | some old => old ++ sepBlock (baseName (pjoin oldB e.1)) ++ c
    | none => c
  else c

/-! ## Lookup and write lemmas -/

theorem findFile_setFile_self (l : List (String × List Char)) (k : String) (v : List Char) :
    findFile k (setFile l k v) = some v := by
  induction l with
  | nil => simp [setFile, findFile]
  | cons h t ih =>
    obtain ⟨k0, v0⟩ := h
    by_cases hk : k0 = k <;> simp [setFile, hk, findFile, ih]

theorem findFile_setFile_ne (l : List (String × List Char)) {k q : String}
    (v : List Char) (h : k ≠ q) : findFile q (setFile l k v) = findFile q l := by
  induction l with
  | nil => simp [setFile, findFile, h]
  | cons e t ih =>
    obtain ⟨k0, v0⟩ := e
    by_cases hk : k0 = k
    · subst hk
      simp [setFile, findFile, h, ih]
    · simp [setFile, findFile, hk, ih]

theorem lookupFile_writeFile_self (fs : FS) (k : String) (v : List Char) :
    lookupFile (writeFile fs k v) k = some v :=
  findFile_setFile_self fs.files k v

theorem lookupFile_writeFile_ne (fs : FS) {k q : String} (v : List Char)
    (h : k ≠ q) : lookupFile (writeFile fs k v) q = lookupFile fs q :=
  findFile_setFile_ne fs.files v h

/-! ## `copy_file` lemmas -/

theorem copy_file_missing (fs : FS) (src dst : String) (app : Bool)
    (h : lookupFile fs src = none) : copy_file fs src dst app = (fs, false) := by
  simp [copy_file, h]

theorem copy_file_snd (fs : FS) (src dst : String) (app : Bool) :
    (copy_file fs src dst app).2 = (lookupFile fs src).isSome := by
  cases h : lookupFile fs src with
  | none => simp [copy_file, h]
  | some c =>
    cases app <;> cases h2 : lookupFile fs dst <;>
      simp_all [copy_file, lookupFile, writeFile]

theorem copy_file_lookup_ne (fs : FS) (src dst : String) (app : Bool)
    {q : String} (h : q ≠ dst) :
    lookupFile (copy_file fs src dst app).1 q = lookupFile fs q := by
  cases hs : lookupFile fs src with
  | none => simp [copy_file, hs]
  | some c =>
    cases app <;> cases h2 : lookupFile fs dst <;>
      simp_all [copy_file, lookupFile, writeFile,
        findFile_setFile_ne _ _ (Ne.symm h)]

/-! ## C1: shared destination, Overwrite then Append -/

/-- C1: refuted on the code (code bug).  On a plan whose second
shared-destination entry is marked as an Append continuation
(`determineSyncTwo.py` into `src/core/sync_detection.py`), the copy loop
computes its append flag as the substring test `"Append" in dst_rel`,
which is false for that destination, so the entry overwrites: the final
destination content is `Y`, not `X` followed by the separator block
followed by `Y`. -/
theorem sharedDestination_append_not_executed :
    lookupFile (runPlan "old" "new" FILE_MAPPING sharedDestFS).1
      (pjoin "new" "src/core/sync_detection.py") = some "Y".toList
    ∧ containsSeq "Append".toList "src/core/sync_detection.py".toList = false
    ∧ "Y".toList ≠ "X".toList ++ sepBlock "determineSyncTwo.py" ++ "Y".toList := by
  refine ⟨by decide, by decide, by decide⟩

/-! ## C5: append-mode semantics of `copy_file` -/

/-- C5: for a transfer in append mode with an existing source, a
pre-existing destination ends as its original content, the separator
block naming the source file, then the source content, with the original
bytes an unmodified prefix; a missing destination yields exactly the
overwrite outcome. -/
theorem copy_file_append_semantics (fs : FS) (src dst : String)
    (content : List Char) (hsrc : lookupFile fs src = some content) :
    (∀ old, lookupFile fs dst = some old →
      (copy_file fs src dst true).2 = true ∧
      lookupFile (copy_file fs src dst true).1 dst
        = some (old ++ sepBlock (baseName src) ++ content) ∧
      old <+: old ++ sepBlock (baseName src) ++ content) ∧
    (lookupFile fs dst = none →
      copy_file fs src dst true = copy_file fs src dst false) := by
  constructor
  · intro old hdst
    refine ⟨?_, ?_, ?_⟩
    · simp [copy_file, hsrc, hdst, lookupFile, writeFile] at *
      simp_all [copy_file]
    · simp_all [copy_file, lookupFile, writeFile, findFile_setFile_self]
    · simp [List.append_assoc]
  · intro hdst
    simp_all [copy_file, lookupFile]

/-- Witness for C5 at a concrete input: destination `new/a.py` holding
`X`, source `old/b.py` holding `Y`. -/
theorem copy_file_append_semantics_witness :
    lookupFile (copy_file appendDemoFS "old/b.py" "new/a.py" true).1 "new/a.py"
      = some ("X".toList ++ sepBlock (baseName "old/b.py") ++ "Y".toList) :=
  ((copy_file_append_semantics appendDemoFS "old/b.py" "new/a.py" "Y".toList
    (by decide)).1 "X".toList (by decide)).2.1

/-! ## C7: header annotation on a missing path -/

/-- C7 counterexample: invoking `add_file_header` on a path that does not
exist signals an error (Python `open` for reading raises
`FileNotFoundError`), refuting the claim that no error is signaled. -/
theorem add_file_header_missing_path_raises :
    add_file_header emptyFS "new/src/models/trainer.py"
      "Neural network training utilities"
      = .error "FileNotFoundError: new/src/models/trainer.py" := rfl

/-- C7 (amended): invoked on a missing path, the header-annotation
operation raises; invoked on an existing path it never raises; and the
migration's annotation stage guards every invocation with an existence
check, so a missing path is silently skipped there and no error is
signaled by the stage. -/
theorem add_file_header_missing_guarded (fs : FS) (p d : String) :
    (lookupFile fs p = none →
      add_file_header fs p d = .error ("FileNotFoundError: " ++ p)) ∧
    (∀ c, lookupFile fs p = some c → ∃ fs1, add_file_header fs p d = .ok fs1) ∧
    (∀ newB e, lookupFile fs (pjoin newB (Prod.fst e)) = none →
      headerStep newB fs e = fs) := by
  refine ⟨fun h => by simp [add_file_header, h], fun c h => ?_, fun newB e h => ?_⟩
  · by_cases hd : hasDocstring c
    · exact ⟨fs, by simp [add_file_header, h, hd]⟩
    · exact ⟨writeFile fs p (headerBlock d ++ c), by simp [add_file_header, h, hd]⟩
  · simp [headerStep, h]

/-- Witness for C7's amended claim at concrete inputs. -/
theorem add_file_header_missing_guarded_witness :
    add_file_header emptyFS "a.py" "d" = .error ("FileNotFoundError: " ++ "a.py")
    ∧ headerStep "new" emptyFS ("src/core/mocu_cuda.py", "CUDA-accelerated MOCU computation") = emptyFS :=
  ⟨(add_file_header_missing_guarded emptyFS "a.py" "d").1 rfl,
   (add_file_header_missing_guarded emptyFS "x" "d").2.2 "new"
     ("src/core/mocu_cuda.py", "CUDA-accelerated MOCU computation") rfl⟩

/-! ## C6: idempotence of `add_file_header` -/

theorem pyStrip_three_quotes (t : List Char) :
    "\x22\x22\x22".toList.isPrefixOf
      (pyStrip ('\x22' :: '\x22' :: '\x22' :: t)) = true := by
  have hws : Char.isWhitespace '\x22' = false := by decide
  rw [List.isPrefixOf_iff_prefix]
  unfold pyStrip
  simp only [List.dropWhile_cons, hws, Bool.false_eq_true, if_false]
  have hrev : ('\x22' :: '\x22' :: '\x22' :: t).reverse
      = t.reverse ++ ['\x22', '\x22', '\x22'] := by simp
  rw [hrev, List.dropWhile_append]
  split
  · decide
  · rw [List.reverse_append]
    exact List.prefix_append _ _

theorem hasDocstring_headerBlock (d : String) (c : List Char) :
    hasDocstring (headerBlock d ++ c) = true := by
  have hlit : "\x22\x22\x22\n".toList = ['\x22', '\x22', '\x22', '\n'] := rfl
  unfold headerBlock
  rw [hlit]
  simp only [List.cons_append, List.nil_append, List.append_assoc]
  unfold hasDocstring
  rw [pyStrip_three_quotes]
  simp

/-- C6: the header-annotation operation is idempotent: a second run on
the state the first run produced changes nothing, because the prepended
header itself begins with a triple-quote docstring marker. -/
theorem add_file_header_idempotent (fs fs1 : FS) (p d : String)
    (h : add_file_header fs p d = .ok fs1) :
    add_file_header fs1 p d = .ok fs1 := by
  cases hc : lookupFile fs p with
  | none => simp [add_file_header, hc] at h
  | some content =>
    by_cases hd : hasDocstring content
    · have hfs : fs = fs1 := by simpa [add_file_header, hc, hd] using h
      subst hfs
      simp [add_file_header, hc, hd]
    · have hfs : fs1 = writeFile fs p (headerBlock d ++ content) := by
        have := h
        simp [add_file_header, hc, hd] at this
        exact this.symm
      subst hfs
      simp [add_file_header, lookupFile_writeFile_self, hasDocstring_headerBlock]

/-- Witness for C6 at a concrete input: annotating `x = 1` once prepends
the header; the second run returns the same file system. -/
theorem add_file_header_idempotent_witness :
    add_file_header headerDemoAfter "new/src/models/trainer.py"
      "Neural network training utilities" = .ok headerDemoAfter :=
  add_file_header_idempotent headerDemoFS headerDemoAfter
    "new/src/models/trainer.py" "Neural network training utilities" rfl

/-! ## C8: idempotence of `ensure_directories` -/

theorem mem_addDir_of_mem {l : List String} {a : String} (d : String)
    (h : a ∈ l) : a ∈ addDir l d := by
  unfold addDir
  split
  · exact h
  · exact List.mem_append_left _ h

theorem mem_addDir_self (l : List String) (d : String) : d ∈ addDir l d := by
  unfold addDir
  split
  · assumption
  · simp

theorem addDir_eq_of_mem {l : List String} {d : String} (h : d ∈ l) :
    addDir l d = l := if_pos h

theorem mem_foldl_addDir_of_mem (L : List String) {l : List String}
    {a : String} (h : a ∈ l) : a ∈ L.foldl addDir l := by
  induction L generalizing l with
  | nil => exact h
  | cons d t ih => exact ih (mem_addDir_of_mem d h)

theorem mem_foldl_addDir_of_mem_list {L : List String} {l : List String}
    {a : String} (h : a ∈ L) : a ∈ L.foldl addDir l := by
  induction L generalizing l with
  | nil => cases h
  | cons d t ih =>
    rcases List.mem_cons.1 h with rfl | h2
    · exact mem_foldl_addDir_of_mem t (mem_addDir_self l a)
    · exact ih h2

theorem foldl_addDir_eq {L : List String} {l : List String}
    (h : ∀ a ∈ L, a ∈ l) : L.foldl addDir l = l := by
  induction L with
  | nil => rfl
  | cons d t ih =>
    have hd : addDir l d = l := addDir_eq_of_mem (h d (by simp))
    simp only [List.foldl_cons, hd]
    exact ih fun a ha => h a (List.mem_cons_of_mem d ha)

theorem mem_mkdirParents_of_mem {l : List String} {a : String} (p : String)
    (h : a ∈ l) : a ∈ mkdirParents l p :=
  mem_foldl_addDir_of_mem _ h

theorem ancestor_mem_mkdirParents {l : List String} {a : String} {p : String}
    (h : a ∈ ancestorPaths p) : a ∈ mkdirParents l p :=
  mem_foldl_addDir_of_mem_list h

theorem mkdirParents_eq_of {l : List String} {p : String}
    (h : ∀ a ∈ ancestorPaths p, a ∈ l) : mkdirParents l p = l :=
  foldl_addDir_eq h

/-- `markerStep` never changes the directory list. -/
theorem markerStep_dirs (b d : String) (fs1 : FS) :
    (markerStep b d fs1).dirs = fs1.dirs := by
  unfold markerStep
  split <;> rfl

/-- `markerStep` preserves every present file binding (the marker is
written only when absent). -/
theorem markerStep_preserves_some (b d : String) {fs1 : FS} {q : String}
    {c : List Char} (h : lookupFile fs1 q = some c) :
    lookupFile (markerStep b d fs1) q = some c := by
  unfold markerStep
  split
  · exact h
  · next hm =>
    have hne : markerPath b d ≠ q := by
      intro he
      rw [he, h] at hm
      cases hm
    rw [lookupFile_writeFile_ne _ _ hne]
    exact h

/-- After `markerStep` the marker file is present. -/
theorem markerStep_marker_isSome (b d : String) (fs1 : FS) :
    (lookupFile (markerStep b d fs1) (markerPath b d)).isSome = true := by
  unfold markerStep
  split
  · next v hm => rw [hm]; rfl
  · rw [lookupFile_writeFile_self]
    rfl

/-- The directory list of `dirStep` is `mkdirParents` of the old one, in
every branch. -/
theorem dirStep_dirs (b d : String) (fs : FS) :
    (dirStep b fs d).dirs = mkdirParents fs.dirs (pjoin b d) := by
  unfold dirStep
  split
  · rw [markerStep_dirs]
  · rfl

/-- `dirStep` preserves every present file binding. -/
theorem dirStep_preserves_some (b d : String) {fs : FS} {q : String}
    {c : List Char} (h : lookupFile fs q = some c) :
    lookupFile (dirStep b fs d) q = some c := by
  unfold dirStep
  split
  · exact markerStep_preserves_some b d h
  · exact h

theorem provisioned_dirStep_self (b d : String) (fs : FS) :
    provisioned b (dirStep b fs d) d := by
  constructor
  · intro a ha
    rw [dirStep_dirs]
    exact ancestor_mem_mkdirParents ha
  · intro hsrc
    unfold dirStep
    rw [if_pos hsrc]
    exact markerStep_marker_isSome b d _

theorem provisioned_dirStep (b d d0 : String) {fs : FS}
    (h : provisioned b fs d) : provisioned b (dirStep b fs d0) d := by
  obtain ⟨hdirs, hmark⟩ := h
  constructor
  · intro a ha
    rw [dirStep_dirs]
    exact mem_mkdirParents_of_mem _ (hdirs a ha)
  · intro hsrc
    obtain ⟨c, hc⟩ := Option.isSome_iff_exists.1 (hmark hsrc)
    rw [dirStep_preserves_some b d0 hc]
    rfl

theorem dirStep_eq_of_provisioned {b d : String} {fs : FS}
    (h : provisioned b fs d) : dirStep b fs d = fs := by
  obtain ⟨hdirs, hmark⟩ := h
  have hdireq : mkdirParents fs.dirs (pjoin b d) = fs.dirs := mkdirParents_eq_of hdirs
  unfold dirStep
  by_cases hsrc : isSrcDir d = true
  · rw [if_pos hsrc, hdireq]
    show markerStep b d fs = fs
    obtain ⟨c, hc⟩ := Option.isSome_iff_exists.1 (hmark hsrc)
    unfold markerStep
    rw [hc]
  · rw [if_neg hsrc, hdireq]

theorem provisioned_foldl (b : String) (L : List String) (d : String)
    {fs : FS} (h : provisioned b fs d) :
    provisioned b (L.foldl (dirStep b) fs) d := by
  induction L generalizing fs with
  | nil => exact h
  | cons d0 t ih => exact ih (provisioned_dirStep b d d0 h)

theorem foldl_dirStep_establishes (b : String) (L : List String) (fs : FS) :
    ∀ d ∈ L, provisioned b (L.foldl (dirStep b) fs) d := by
  induction L generalizing fs with
  | nil => intro d hd; cases hd
  | cons d0 t ih =>
    intro d hd
    rcases List.mem_cons.1 hd with rfl | h2
    · exact provisioned_foldl b t d (provisioned_dirStep_self b d fs)
    · exact ih (dirStep b fs d0) d h2

theorem foldl_dirStep_eq (b : String) {L : List String} {fs : FS}
    (h : ∀ d ∈ L, provisioned b fs d) : L.foldl (dirStep b) fs = fs := by
  induction L with
  | nil => rfl
  | cons d0 t ih =>
    simp only [List.foldl_cons, dirStep_eq_of_provisioned (h d0 (by simp))]
    exact ih fun d hd => h d (List.mem_cons_of_mem d0 hd)

theorem foldl_dirStep_preserves_some (b : String) (L : List String)
    {fs : FS} {q : String} {c : List Char} (h : lookupFile fs q = some c) :
    lookupFile (L.foldl (dirStep b) fs) q = some c := by
  induction L generalizing fs with
  | nil => exact h
  | cons d0 t ih => exact ih (dirStep_preserves_some b d0 h)

/-- C8: the directory provisioner is idempotent: a second run on the
result of the first changes nothing (all directories and markers already
exist, and markers are written only when absent), and no pre-existing
file content is ever truncated or replaced. -/
theorem ensure_directories_idempotent (b : String) (fs : FS) :
    ensure_directories b (ensure_directories b fs) = ensure_directories b fs ∧
    (∀ q c, lookupFile fs q = some c →
      lookupFile (ensure_directories b fs) q = some c) := by
  constructor
  · exact foldl_dirStep_eq b (foldl_dirStep_establishes b DIRS_LIST fs)
  · intro q c h
    exact foldl_dirStep_preserves_some b DIRS_LIST h

/-- Witness for C8 at a concrete input: a root whose `src/core` marker
already holds custom content keeps it across a provisioning run. -/
theorem ensure_directories_idempotent_witness :
    lookupFile
      (ensure_directories "root"
        { files := [(markerPath "root" "src/core", "custom".toList)], dirs := [] })
      (markerPath "root" "src/core") = some "custom".toList :=
  (ensure_directories_idempotent "root"
    { files := [(markerPath "root" "src/core", "custom".toList)], dirs := [] }).2
    (markerPath "root" "src/core") "custom".toList rfl

/-! ## C2: the runner executes every check once, isolating exceptions -/

theorem foldl_addFinding_eq (l : List Finding) (st : VState) :
    l.foldl addFinding st =
      ⟨st.passed ++ levelMsgs .passed l, st.warnings ++ levelMsgs .warning l,
       st.errors ++ levelMsgs .error l⟩ := by
  induction l generalizing st with
  | nil => simp [levelMsgs]
  | cons f t ih =>
    obtain ⟨lv, m⟩ := f
    cases lv <;>
      simp [addFinding, levelMsgs, ih, List.filter_cons, List.append_assoc]

theorem applyCheck_eq (st : VState) (n : String) (o : CheckOutcome) :
    applyCheck st (n, o) =
      ⟨st.passed ++ levelMsgs .passed o.1, st.warnings ++ levelMsgs .warning o.1,
       st.errors ++ (levelMsgs .error o.1 ++ excMsgs n o.2)⟩ := by
  obtain ⟨l, e⟩ := o
  cases e <;> simp [applyCheck, foldl_addFinding_eq, excMsgs, List.append_assoc]

theorem levelMsgs_length_partition (l : List Finding) :
    (levelMsgs .passed l).length + (levelMsgs .warning l).length
      + (levelMsgs .error l).length = l.length := by
  induction l with
  | nil => simp [levelMsgs]
  | cons f t ih =>
    obtain ⟨lv, m⟩ := f
    cases lv <;> simp [levelMsgs, List.filter_cons] at ih ⊢ <;> omega

theorem levelMsgs_append (c : Level) (a b : List Finding) :
    levelMsgs c (a ++ b) = levelMsgs c a ++ levelMsgs c b := by
  simp [levelMsgs]

/-- C2: for every combination of check outcomes, including checks that
raise, the runner executes the five named checks exactly once in their
fixed order: each bucket is exactly the in-order concatenation of each
check's findings at that level, a raising check contributes exactly one
error naming that check (placed after the findings it emitted before
raising) without stopping later checks, and the three bucket counts sum
to the number of findings emitted across all checks (exception
escalations included). -/
theorem validate_all_five_checks (o1 o2 o3 o4 o5 : CheckOutcome) :
    (validate_all (fiveChecks o1 o2 o3 o4 o5)).1.passed
      = levelMsgs .passed (o1.1 ++ o2.1 ++ o3.1 ++ o4.1 ++ o5.1) ∧
    (validate_all (fiveChecks o1 o2 o3 o4 o5)).1.warnings
      = levelMsgs .warning (o1.1 ++ o2.1 ++ o3.1 ++ o4.1 ++ o5.1) ∧
    (validate_all (fiveChecks o1 o2 o3 o4 o5)).1.errors
      = (levelMsgs .error o1.1 ++ excMsgs "Directory Structure" o1.2)
        ++ (levelMsgs .error o2.1 ++ excMsgs "Required Files" o2.2)
        ++ (levelMsgs .error o3.1 ++ excMsgs "Python Imports" o3.2)
        ++ (levelMsgs .error o4.1 ++ excMsgs "Configuration" o4.2)
        ++ (levelMsgs .error o5.1 ++ excMsgs "Documentation" o5.2) ∧
    (validate_all (fiveChecks o1 o2 o3 o4 o5)).1.passed.length
      + (validate_all (fiveChecks o1 o2 o3 o4 o5)).1.warnings.length
      + (validate_all (fiveChecks o1 o2 o3 o4 o5)).1.errors.length
      = (o1.1.length + (excMsgs "Directory Structure" o1.2).length)
        + (o2.1.length + (excMsgs "Required Files" o2.2).length)
        + (o3.1.length + (excMsgs "Python Imports" o3.2).length)
        + (o4.1.length + (excMsgs "Configuration" o4.2).length)
        + (o5.1.length + (excMsgs "Documentation" o5.2).length) := by
  have hrun : (validate_all (fiveChecks o1 o2 o3 o4 o5)).1 =
      ⟨levelMsgs .passed o1.1 ++ levelMsgs .passed o2.1 ++ levelMsgs .passed o3.1
         ++ levelMsgs .passed o4.1 ++ levelMsgs .passed o5.1,
       levelMsgs .warning o1.1 ++ levelMsgs .warning o2.1 ++ levelMsgs .warning o3.1
         ++ levelMsgs .warning o4.1 ++ levelMsgs .warning o5.1,
       (levelMsgs .error o1.1 ++ excMsgs "Directory Structure" o1.2)
         ++ (levelMsgs .error o2.1 ++ excMsgs "Required Files" o2.2)
         ++ (levelMsgs .error o3.1 ++ excMsgs "Python Imports" o3.2)
         ++ (levelMsgs .error o4.1 ++ excMsgs "Configuration" o4.2)
         ++ (levelMsgs .error o5.1 ++ excMsgs "Documentation" o5.2)⟩ := by
    simp [validate_all, fiveChecks, applyCheck_eq, List.append_assoc]
  refine ⟨?_, ?_, ?_, ?_⟩
  · rw [hrun]
    simp [levelMsgs_append, List.append_assoc]
  · rw [hrun]
    simp [levelMsgs_append, List.append_assoc]
  · rw [hrun]
  · rw [hrun]
    simp only [List.length_append]
    have h1 := levelMsgs_length_partition o1.1
    have h2 := levelMsgs_length_partition o2.1
    have h3 := levelMsgs_length_partition o3.1
    have h4 := levelMsgs_length_partition o4.1
    have h5 := levelMsgs_length_partition o5.1
    omega

/-! ## C3: exit status zero exactly when the error bucket is empty -/

set_option maxRecDepth 8000 in
/-- C3: for every validation run the exit status is 0 exactly when the
error bucket ends empty, warnings never affecting the outcome; in
particular the run over a conforming root whose only non-pass finding is
one unresolvable-optional-import warning exits with status zero. -/
theorem exit_status_zero_iff_no_errors :
    (∀ checks, main_exit checks = 0 ↔ (validate_all checks).1.errors = []) ∧
    main_exit oneWarningChecks = 0 ∧
    (validate_all oneWarningChecks).1.warnings
      = ["Module not found: src.models.message_passing"] ∧
    (validate_all oneWarningChecks).1.errors = [] := by
  refine ⟨?_, by rfl, by rfl, by rfl⟩
  intro checks
  have h : (validate_all checks).2
      = ((validate_all checks).1.errors.length == 0) := rfl
  rw [main_exit, h]
  cases herr : (validate_all checks).1.errors <;> simp [herr]

/-- Witness for C3 at a concrete input: the empty check list gives exit
status 0 and an empty error bucket. -/
theorem exit_status_zero_iff_no_errors_witness :
    main_exit [] = 0 ↔ (validate_all []).1.errors = [] :=
  exit_status_zero_iff_no_errors.1 []

/-! ## C4: partial-failure semantics of the copy loop -/

theorem planStep_eval (oldB newB : String) (acc : FS × Nat × Nat)
    (e : String × String × Bool) :
    planStep oldB newB acc e =
      ((copy_file acc.1 (pjoin oldB e.1) (pjoin newB e.2.1)
          (containsSeq "Append".toList e.2.1.toList)).1,
       if (lookupFile acc.1 (pjoin oldB e.1)).isSome then (acc.2.1 + 1, acc.2.2)
       else (acc.2.1, acc.2.2 + 1)) := by
  have hsnd := copy_file_snd acc.1 (pjoin oldB e.1) (pjoin newB e.2.1)
    (containsSeq "Append".toList e.2.1.toList)
  unfold planStep
  cases hc : copy_file acc.1 (pjoin oldB e.1) (pjoin newB e.2.1)
      (containsSeq "Append".toList e.2.1.toList) with
  | mk fs1 ok =>
    rw [hc] at hsnd
    dsimp only
    rw [hc]
    cases ok
    · rw [← hsnd]
      simp
    · rw [← hsnd]
      simp

theorem runPlan_counts_aux (oldB newB : String) :
    ∀ (plan : List (String × String × Bool)) (fs : FS) (s f : Nat),
    (∀ e1 ∈ plan, ∀ e2 ∈ plan, pjoin newB e1.2.1 ≠ pjoin oldB e2.1) →
    (plan.foldl (planStep oldB newB) (fs, s, f)).2
      = (s + (plan.filter (fun e => (lookupFile fs (pjoin oldB e.1)).isSome)).length,
         f + (plan.filter (fun e => !(lookupFile fs (pjoin oldB e.1)).isSome)).length) := by
  intro plan
  induction plan with
  | nil => intro fs s f _; simp
  | cons e t ih =>
    intro fs s f h
    have hpres : ∀ e2 ∈ t,
        lookupFile (copy_file fs (pjoin oldB e.1) (pjoin newB e.2.1)
          (containsSeq "Append".toList e.2.1.toList)).1 (pjoin oldB e2.1)
        = lookupFile fs (pjoin oldB e2.1) := by
      intro e2 he2
      exact copy_file_lookup_ne fs _ _ _
        (fun heq => h e (by simp) e2 (by simp [he2]) heq.symm)
    have ht : ∀ e1 ∈ t, ∀ e2 ∈ t, pjoin newB e1.2.1 ≠ pjoin oldB e2.1 :=
      fun e1 h1 e2 h2 => h e1 (by simp [h1]) e2 (by simp [h2])
    rw [List.foldl_cons, planStep_eval]
    cases hsome : (lookupFile fs (pjoin oldB e.1)).isSome
    · simp only [Bool.false_eq_true, if_false]
      rw [ih _ _ _ ht]
      rw [List.filter_congr (fun e2 he2 => by rw [hpres e2 he2] : ∀ e2 ∈ t,
            ((lookupFile (copy_file fs (pjoin oldB e.1) (pjoin newB e.2.1)
              (containsSeq "Append".toList e.2.1.toList)).1 (pjoin oldB e2.1)).isSome : Bool)
            = (lookupFile fs (pjoin oldB e2.1)).isSome),
          List.filter_congr (fun e2 he2 => by rw [hpres e2 he2] : ∀ e2 ∈ t,
            (!(lookupFile (copy_file fs (pjoin oldB e.1) (pjoin newB e.2.1)
              (containsSeq "Append".toList e.2.1.toList)).1 (pjoin oldB e2.1)).isSome : Bool)
            = !(lookupFile fs (pjoin oldB e2.1)).isSome)]
      have hnone : lookupFile fs (pjoin oldB e.1) = none := by
        cases hl : lookupFile fs (pjoin oldB e.1)
        · rfl
        · rw [hl] at hsome
          cases hsome
      simp [List.filter_cons, hsome, hnone]
      omega
    · simp only [if_true]
      rw [ih _ _ _ ht]
      rw [List.filter_congr (fun e2 he2 => by rw [hpres e2 he2] : ∀ e2 ∈ t,
            ((lookupFile (copy_file fs (pjoin oldB e.1) (pjoin newB e.2.1)
              (containsSeq "Append".toList e.2.1.toList)).1 (pjoin oldB e2.1)).isSome : Bool)
            = (lookupFile fs (pjoin oldB e2.1)).isSome),
          List.filter_congr (fun e2 he2 => by rw [hpres e2 he2] : ∀ e2 ∈ t,
            (!(lookupFile (copy_file fs (pjoin oldB e.1) (pjoin newB e.2.1)
              (containsSeq "Append".toList e.2.1.toList)).1 (pjoin oldB e2.1)).isSome : Bool)
            = !(lookupFile fs (pjoin oldB e2.1)).isSome)]
      have hnn : ¬ lookupFile fs (pjoin oldB e.1) = none := by
        intro hl
        rw [hl] at hsome
        cases hsome
      simp [List.filter_cons, hsome, hnn]
      omega

/-- One successful `copy_file` call leaves the destination holding
exactly the per-entry transfer content: append-to-old when the flag is
set and the destination exists, a byte-for-byte copy otherwise. -/
theorem copy_file_writes (fs : FS) (src dst : String) (app : Bool)
    (c : List Char) (h : lookupFile fs src = some c) :
    lookupFile (copy_file fs src dst app).1 dst =
      some (if app then
              match lookupFile fs dst with
              | some old => old ++ sepBlock (baseName src) ++ c
              | none => c
            else c) := by
  cases app
  · simp_all [copy_file, lookupFile, writeFile, findFile_setFile_self]
  · cases hd : lookupFile fs dst <;>
      simp_all [copy_file, lookupFile, writeFile, findFile_setFile_self]

theorem foldl_planStep_lookup_ne (oldB newB : String)
    (plan : List (String × String × Bool)) (acc : FS × Nat × Nat)
    {p : String} (h : ∀ e ∈ plan, p ≠ pjoin newB e.2.1) :
    lookupFile (plan.foldl (planStep oldB newB) acc).1 p = lookupFile acc.1 p := by
  induction plan generalizing acc with
  | nil => rfl
  | cons e t ih =>
    rw [List.foldl_cons, ih _ (fun e2 he2 => h e2 (List.mem_cons_of_mem e he2)),
      planStep_eval]
    exact copy_file_lookup_ne acc.1 _ _ _ (h e (by simp))

theorem foldl_planStep_entry_content (oldB newB : String) :
    ∀ (plan : List (String × String × Bool)) (acc : FS × Nat × Nat),
    (∀ e1 ∈ plan, ∀ e2 ∈ plan, pjoin newB e1.2.1 ≠ pjoin oldB e2.1) →
    plan.Pairwise (fun e1 e2 => pjoin newB e1.2.1 ≠ pjoin newB e2.2.1) →
    ∀ e ∈ plan, ∀ c, lookupFile acc.1 (pjoin oldB e.1) = some c →
    lookupFile (plan.foldl (planStep oldB newB) acc).1 (pjoin newB e.2.1)
      = some (singleTransferContent oldB newB acc.1 e c) := by
  intro plan
  induction plan with
  | nil =>
    intro acc _ _ e he
    cases he
  | cons e0 t ih =>
    intro acc hdisj hpair e he c hc
    rw [List.pairwise_cons] at hpair
    obtain ⟨hp0, hpt⟩ := hpair
    rw [List.foldl_cons]
    rcases List.mem_cons.1 he with rfl | het
    · have hwrite := copy_file_writes acc.1 (pjoin oldB e.1) (pjoin newB e.2.1)
        (containsSeq "Append".toList e.2.1.toList) c hc
      rw [foldl_planStep_lookup_ne oldB newB t _ (fun e2 he2 => hp0 e2 he2),
        planStep_eval]
      dsimp only
      rw [hwrite]
      rfl
    · have hd0s : pjoin newB e0.2.1 ≠ pjoin oldB e.1 :=
        hdisj e0 (by simp) e (by simp [het])
      have hacc' : lookupFile (planStep oldB newB acc e0).1 (pjoin oldB e.1)
          = some c := by
        rw [planStep_eval]
        dsimp only
        rw [copy_file_lookup_ne acc.1 _ _ _ (fun heq => hd0s heq.symm)]
        exact hc
      have hstc : singleTransferContent oldB newB (planStep oldB newB acc e0).1 e c
          = singleTransferContent oldB newB acc.1 e c := by
        unfold singleTransferContent
        rw [planStep_eval]
        dsimp only
        rw [copy_file_lookup_ne acc.1 _ _ _ (Ne.symm (hp0 e het))]
      have hdisjt : ∀ e1 ∈ t, ∀ e2 ∈ t, pjoin newB e1.2.1 ≠ pjoin oldB e2.1 :=
        fun e1 h1 e2 h2 => hdisj e1 (by simp [h1]) e2 (by simp [h2])
      rw [← hstc]
      exact ih (planStep oldB newB acc e0) hdisjt hpt e het c hacc'

/-- C4: a transfer whose source is missing does not raise: it returns
failure with the file system untouched and control returns to the
caller; consequently a plan with exactly one missing source among its
entries (destinations not aliasing sources) attempts every entry and
reports exactly one failure and N-1 successes, and — when the entries
write pairwise-distinct destinations — each of the N-1 entries with an
existing source is transferred correctly: its destination finally holds
exactly the content its transfer wrote (append-to-old when the loop's
flag is set and the destination pre-existed, a byte-for-byte copy of the
source otherwise). -/
theorem runPlan_missing_source_counts (oldB newB : String)
    (plan : List (String × String × Bool)) (fs : FS)
    (hdisj : ∀ e1 ∈ plan, ∀ e2 ∈ plan, pjoin newB e1.2.1 ≠ pjoin oldB e2.1)
    (hone : (plan.filter
      (fun e => !(lookupFile fs (pjoin oldB e.1)).isSome)).length = 1) :
    (∀ fs2 src dst app, lookupFile fs2 src = none →
      copy_file fs2 src dst app = (fs2, false)) ∧
    (runPlan oldB newB plan fs).2.1 = plan.length - 1 ∧
    (runPlan oldB newB plan fs).2.2 = 1 ∧
    (runPlan oldB newB plan fs).2.1 + (runPlan oldB newB plan fs).2.2
      = plan.length ∧
    (plan.Pairwise (fun e1 e2 => pjoin newB e1.2.1 ≠ pjoin newB e2.2.1) →
      ∀ e ∈ plan, ∀ c, lookupFile fs (pjoin oldB e.1) = some c →
      lookupFile (runPlan oldB newB plan fs).1 (pjoin newB e.2.1)
        = some (singleTransferContent oldB newB fs e c)) := by
  have hlen := List.length_eq_length_filter_add
    (l := plan) (fun e => (lookupFile fs (pjoin oldB e.1)).isSome)
  have hrun := runPlan_counts_aux oldB newB plan fs 0 0 hdisj
  refine ⟨fun fs2 src dst app h => copy_file_missing fs2 src dst app h,
    ?_, ?_, ?_, ?_⟩
  · unfold runPlan
    rw [hrun]
    simp only
    omega
  · unfold runPlan
    rw [hrun]
    simp only
    omega
  · unfold runPlan
    rw [hrun]
    simp only
    omega
  · intro hpair e he c hc
    exact foldl_planStep_entry_content oldB newB plan (fs, 0, 0) hdisj hpair e he c hc

/-- Witness for C4 at a concrete input: the three-entry plan with one
missing source yields one failure and two successes, and the first
entry's destination finally holds exactly its source's bytes. -/
theorem runPlan_missing_source_counts_witness :
    (runPlan "old" "new" demoPlan demoPlanFS).2.2 = 1 ∧
    (runPlan "old" "new" demoPlan demoPlanFS).2.1 = demoPlan.length - 1 ∧
    lookupFile (runPlan "old" "new" demoPlan demoPlanFS).1 (pjoin "new" "dst1.py")
      = some "A".toList :=
  ⟨(runPlan_missing_source_counts "old" "new" demoPlan demoPlanFS
      (by decide) (by decide)).2.2.1,
   (runPlan_missing_source_counts "old" "new" demoPlan demoPlanFS
      (by decide) (by decide)).2.1,
   ((runPlan_missing_source_counts "old" "new" demoPlan demoPlanFS
      (by decide) (by decide)).2.2.2.2 (by decide)
      ("a.py", "dst1.py", true) (by decide) "A".toList (by decide)).trans
     (by decide)⟩

/-! ## C9: no `src/__init__.py` at the source-tree root -/

theorem string_data_ext {s t : String} (h : s.data = t.data) : s = t := by
  cases s
  cases t
  exact congrArg String.mk h

theorem pjoin_ne_of_ne (x : String) {u v : String} (h : u ≠ v) :
    pjoin x u ≠ pjoin x v := by
  intro he
  apply h
  have hd := congrArg String.data he
  simp only [pjoin, String.data_append, List.append_assoc] at hd
  have h1 := List.append_cancel_left hd
  have h2 := List.append_cancel_left h1
  exact string_data_ext h2

theorem markerPath_eq_pjoin (b d : String) :
    markerPath b d = pjoin b (d ++ "/" ++ "__init__.py") := by
  apply string_data_ext
  simp [markerPath, pjoin, String.data_append]

theorem dirStep_lookup_ne (b d : String) (fs : FS) {p : String}
    (h : isSrcDir d = true → p ≠ markerPath b d) :
    lookupFile (dirStep b fs d) p = lookupFile fs p := by
  unfold dirStep
  by_cases hsrc : isSrcDir d = true
  · rw [if_pos hsrc]
    unfold markerStep
    split
    · rfl
    · rw [lookupFile_writeFile_ne _ _ (Ne.symm (h hsrc))]
      rfl
  · rw [if_neg hsrc]
    rfl

theorem foldl_dirStep_lookup_ne (b : String) (L : List String) (fs : FS)
    {p : String} (h : ∀ d ∈ L, isSrcDir d = true → p ≠ markerPath b d) :
    lookupFile (L.foldl (dirStep b) fs) p = lookupFile fs p := by
  induction L generalizing fs with
  | nil => rfl
  | cons d0 t ih =>
    rw [List.foldl_cons, ih _ (fun d hd => h d (List.mem_cons_of_mem d0 hd)),
      dirStep_lookup_ne b d0 fs (h d0 (by simp))]

theorem ensure_directories_lookup_ne (b : String) (fs : FS) {p : String}
    (h : ∀ d ∈ DIRS_LIST, isSrcDir d = true → p ≠ markerPath b d) :
    lookupFile (ensure_directories b fs) p = lookupFile fs p :=
  foldl_dirStep_lookup_ne b DIRS_LIST fs h

theorem runPlan_lookup_ne (oldB newB : String)
    (plan : List (String × String × Bool)) (fs : FS) {p : String}
    (h : ∀ e ∈ plan, p ≠ pjoin newB e.2.1) :
    lookupFile (runPlan oldB newB plan fs).1 p = lookupFile fs p :=
  foldl_planStep_lookup_ne oldB newB plan (fs, 0, 0) h

theorem headerStep_preserves_none (newB : String) (fs : FS)
    (e : String × String) {p : String} (h : lookupFile fs p = none) :
    lookupFile (headerStep newB fs e) p = none := by
  unfold headerStep
  cases hl : lookupFile fs (pjoin newB e.1) with
  | none => exact h
  | some c =>
    have hne : pjoin newB e.1 ≠ p := by
      intro heq
      rw [heq, h] at hl
      cases hl
    unfold add_file_header
    rw [hl]
    by_cases hd : hasDocstring c
    · simp only [hd, Bool.not_true, Bool.false_eq_true, if_false]
      exact h
    · simp only [hd, Bool.not_false, if_true]
      rw [lookupFile_writeFile_ne _ _ hne]
      exact h

theorem headerPass_preserves_none (newB : String) (fs : FS) {p : String}
    (h : lookupFile fs p = none) :
    lookupFile (headerPass newB fs) p = none := by
  unfold headerPass
  generalize FILE_DESCRIPTIONS = L
  induction L generalizing fs with
  | nil => exact h
  | cons e t ih =>
    rw [List.foldl_cons]
    exact ih _ (headerStep_preserves_none newB fs e h)

theorem create_migration_report_lookup_ne (b : String) (fs : FS)
    (s f : Nat) {p : String} (h : p ≠ pjoin b "MIGRATION_REPORT.md") :
    lookupFile (create_migration_report b fs s f) p = lookupFile fs p := by
  unfold create_migration_report
  exact lookupFile_writeFile_ne _ _ (Ne.symm h)

/-- C9: the provisioner writes `__init__.py` markers exactly for the
directory entries under `src/` (the four package directories) and never
for the source-tree root `src` itself, which is not in its list; since no
other migration step writes `src/__init__.py` either, a root provisioned
only by the provisioner and migration lacks it, and the validator's
required-files check records the corresponding missing-file error. -/
theorem src_root_marker_never_created :
    (∀ b fs p, (∀ d ∈ DIRS_LIST, isSrcDir d = true → p ≠ markerPath b d) →
      lookupFile (ensure_directories b fs) p = lookupFile fs p) ∧
    (∀ b fs, ∀ d ∈ DIRS_LIST, isSrcDir d = true →
      (lookupFile (ensure_directories b fs) (markerPath b d)).isSome = true) ∧
    DIRS_LIST.filter isSrcDir
      = ["src/core", "src/models", "src/strategies", "src/utils"] ∧
    (∀ oldB newB fs,
      lookupFile fs (pjoin newB "src/__init__.py") = none →
      lookupFile (migrate_files oldB newB fs).1 (pjoin newB "src/__init__.py") = none ∧
      (⟨.error, "Missing file: src/__init__.py"⟩ : Finding)
        ∈ check_required_files newB (migrate_files oldB newB fs).1) := by
  refine ⟨fun b fs p h => ensure_directories_lookup_ne b fs h,
    fun b fs d hd hsrc => ((foldl_dirStep_establishes b DIRS_LIST fs) d hd).2 hsrc,
    by decide, ?_⟩
  intro oldB newB fs h
  have hmark : ∀ d ∈ DIRS_LIST, isSrcDir d = true →
      pjoin newB "src/__init__.py" ≠ markerPath newB d := by
    intro d hd _
    rw [markerPath_eq_pjoin]
    apply pjoin_ne_of_ne
    fin_cases hd <;> decide
  have hdst : ∀ e ∈ FILE_MAPPING,
      pjoin newB "src/__init__.py" ≠ pjoin newB e.2.1 := by
    intro e he
    apply pjoin_ne_of_ne
    fin_cases he <;> decide
  have hrep : pjoin newB "src/__init__.py" ≠ pjoin newB "MIGRATION_REPORT.md" :=
    pjoin_ne_of_ne newB (by decide)
  have hfinal : lookupFile (migrate_files oldB newB fs).1
      (pjoin newB "src/__init__.py") = none := by
    show lookupFile (create_migration_report newB
      (headerPass newB (runPlan oldB newB FILE_MAPPING (ensure_directories newB fs)).1)
      (runPlan oldB newB FILE_MAPPING (ensure_directories newB fs)).2.1
      (runPlan oldB newB FILE_MAPPING (ensure_directories newB fs)).2.2)
      (pjoin newB "src/__init__.py") = none
    rw [create_migration_report_lookup_ne _ _ _ _ hrep]
    apply headerPass_preserves_none
    rw [runPlan_lookup_ne _ _ _ _ hdst, ensure_directories_lookup_ne _ _ hmark]
    exact h
  refine ⟨hfinal, ?_⟩
  unfold check_required_files
  have hin : "src/__init__.py" ∈ REQUIRED_FILES := by decide
  have hm := List.mem_map_of_mem (f := fun f =>
    if (lookupFile (migrate_files oldB newB fs).1 (pjoin newB f)).isSome
    then (⟨.passed, "File exists: " ++ f⟩ : Finding)
    else ⟨.error, "Missing file: " ++ f⟩) hin
  simpa [hfinal] using hm

/-- Witness for C9 at a concrete input: migrating into an empty root
leaves `src/__init__.py` absent and the required-files check reports it
missing. -/
theorem src_root_marker_never_created_witness :
    lookupFile (migrate_files "old" "new" emptyFS).1 (pjoin "new" "src/__init__.py") = none ∧
    (⟨.error, "Missing file: src/__init__.py"⟩ : Finding)
      ∈ check_required_files "new" (migrate_files "old" "new" emptyFS).1 :=
  src_root_marker_never_created.2.2.2 "old" "new" emptyFS rfl

/-! ## C10: non-mapping configuration values -/

/-- C10 counterexample: a configuration file parsing to the non-mapping
value `"x"` (a string) does not hit the generic exception handler at all:
Python substring membership succeeds, so the check emits six per-section
Warning findings and no Error. -/
theorem config_string_value_counterexample :
    (check_configuration "r" configOnlyFS (fun _ => .pvalue (.ystr "x"))).map
        Finding.level = List.replicate 6 .warning
    ∧ levelMsgs .error
        (check_configuration "r" configOnlyFS (fun _ => .pvalue (.ystr "x"))) = [] := by
  refine ⟨by rfl, by rfl⟩

/-- C10 (amended): when the parsed configuration value is a non-container
(null, boolean or number — e.g. an empty file parsing to null), the first
membership test raises `TypeError`, the check's generic exception handler
records exactly one Error finding, and no per-section Passed or Warning
finding is emitted; for non-mapping container values (strings, lists)
membership testing succeeds and the six per-section findings are emitted
instead. -/
theorem config_non_container_single_error (root : String) (fs : FS)
    (parse : List Char → ParseOutcome) (c : List Char) (v : YamlVal)
    (hfile : lookupFile fs (pjoin root "configs/default_config.yaml") = some c)
    (hparse : parse c = .pvalue v) (hv : nonContainer v = true) :
    check_configuration root fs parse
      = [⟨.error, "Config check failed: "
          ++ ("argument of type \x27" ++ typeName v ++ "\x27 is not iterable")⟩] := by
  unfold check_configuration
  rw [hfile]
  dsimp only
  rw [hparse]
  cases v <;> simp [nonContainer] at hv <;>
    simp [sectionFindings, REQUIRED_SECTIONS, pyIn]

/-- Witness for C10's amended claim: an empty configuration file parses
to null, and the check emits exactly the one generic-handler error. -/
theorem config_non_container_single_error_witness :
    check_configuration "r" configOnlyFS (fun _ => .pvalue .ynull)
      = [⟨.error, "Config check failed: "
          ++ ("argument of type \x27" ++ typeName .ynull ++ "\x27 is not iterable")⟩] :=
  config_non_container_single_error "r" configOnlyFS (fun _ => .pvalue .ynull)
    [] .ynull rfl rfl rfl

end AccelerateOED
